import Mathlib

/-!
Verification of the request-processing pipeline of the IT-support bot:
the token-bucket rate limiter, the TTL LRU response cache, the answer
contract (schema validation, clamping, citation domain diversity), the
tool-calling orchestration loop, and the request handler.

JavaScript strings are modelled as lists of characters (`JStr`), JS
numbers holding token counts as rationals, and timestamps as naturals.
External nondeterminism (language-model replies, network fetches) is
passed in as explicit oracle data.
-/

/-- JS strings, modelled as lists of UTF-16-ish code points. -/
abbrev JStr := List Char

/-- Coerce a Lean string literal into the JS-string model. -/
def strOf (s : String) : JStr := s.data

/- ================= Rate limiter (route.ts, TokenBucketRateLimiter) ========= -/

namespace RL

/-- Per-identity bucket state: `{ tokens: number; lastRefill: number }`. -/
structure Bucket where
  tokens : ℚ
  lastRefill : ℕ
  deriving DecidableEq, Repr

/-- The `buckets` map, a JS `Map<string, Bucket>` in insertion order. -/
abbrev RLState := List (String × Bucket)

/-- Source `Map.set`: replace in place if the key exists, else append. -/
def setBucket (st : RLState) (ip : String) (b : Bucket) : RLState :=
  if st.any (fun p => p.1 == ip) then
    st.map (fun p => if p.1 == ip then (ip, b) else p)
  else
    st ++ [(ip, b)]

/-- Constructor parameters of `TokenBucketRateLimiter`. -/
structure RLConfig where
  maxTokens : ℚ
  refillInterval : ℚ

/-- Source `refillRate = maxTokens / refillIntervalMs`. -/
def refillRate (cfg : RLConfig) : ℚ := cfg.maxTokens / cfg.refillInterval

/-- Source `consume(ip)`: refill from elapsed time (capped at `maxTokens`), advance
`lastRefill` to `now`, then take one token if at least one is available.
The bucket is written back in both branches. -/
def consume (cfg : RLConfig) (st : RLState) (ip : String) (now : ℕ) :
    Bool × RLState :=
  let bucket := (List.lookup ip st).getD ⟨cfg.maxTokens, now⟩
  let timePassed : ℕ := now - bucket.lastRefill
  let tokensToAdd : ℚ := (timePassed : ℚ) * refillRate cfg
  let tokens1 : ℚ := min cfg.maxTokens (bucket.tokens + tokensToAdd)
  if 1 ≤ tokens1 then
    (true, setBucket st ip ⟨tokens1 - 1, now⟩)
  else
    (false, setBucket st ip ⟨tokens1, now⟩)

/-- Source `getRemainingTokens(ip)`: current tokens after a virtual refill; a
missing bucket reports a full one. -/
def getRemainingTokens (cfg : RLConfig) (st : RLState) (ip : String)
    (now : ℕ) : ℚ :=
  match List.lookup ip st with
  | none => cfg.maxTokens
  | some b =>
    min cfg.maxTokens (b.tokens + ((now - b.lastRefill : ℕ) : ℚ) * refillRate cfg)

/-- Run `consume` once per entry of `times` (the call instants), collecting
the admission results and threading the state. -/
def consumeRun (cfg : RLConfig) (ip : String) :
    List ℕ → RLState → List Bool × RLState
  | [], st => ([], st)
  | t :: ts, st =>
    let r := consume cfg st ip t
    let rest := consumeRun cfg ip ts r.2
    (r.1 :: rest.1, rest.2)

/-- The configuration instantiated in the route:
`new TokenBucketRateLimiter(10, 10 * 60 * 1000)`. -/
def defaultRL : RLConfig := ⟨10, 600000⟩

/-- Eleven back-to-back calls (all at the same instant) from an identity
with no prior bucket. -/
def burst11 (ip : String) (now : ℕ) : List Bool × RLState :=
  consumeRun defaultRL ip (List.replicate 11 now) []

end RL

/- ================= LRU cache (route.ts, LRUCache) ========================= -/

namespace LRUCache

/-- A stored cache item: `{ value: V; timestamp: number }`. -/
structure Entry (V : Type) where
  value : V
  timestamp : ℕ
  deriving DecidableEq, Repr

/-- The backing JS `Map`, in insertion order: the head is the oldest
(first-inserted / least-recently-used) position, the last element the
most-recently-used one. -/
abbrev Cache (K V : Type) := List (K × Entry V)

variable {K V : Type} [DecidableEq K]

/-- Source `Map.get(key)`: the entry stored under `key`, if any. -/
def findEntry : Cache K V → K → Option (Entry V)
  | [], _ => none
  | (a, e) :: rest, k => if a = k then some e else findEntry rest k

/-- Source `Map.delete(key)`: drop the entry stored under `key`, keeping order. -/
def deleteKey : Cache K V → K → Cache K V
  | [], _ => []
  | (a, e) :: rest, k => if a = k then rest else (a, e) :: deleteKey rest k

/-- Source `get(key)`: absent keys report absent; an entry older than `ttl` is
deleted and reported absent; otherwise the entry is moved to the
most-recently-used position (keeping its timestamp) and its value returned. -/
def get (c : Cache K V) (ttl : ℕ) (k : K) (now : ℕ) : Option V × Cache K V :=
  match findEntry c k with
  | none => (none, c)
  | some item =>
    if now - item.timestamp > ttl then
      (none, deleteKey c k)
    else
      (some item.value, deleteKey c k ++ [(k, item)])

/-- Source `set(key, value)`: delete any existing entry for the key, evict the
oldest entry if still at capacity (`keys().next()` is the head; deleting
from an empty map is a no-op, like the `firstKey !== undefined` guard),
then insert at the most-recently-used position with a fresh timestamp. -/
def set (c : Cache K V) (capacity : ℕ) (k : K) (v : V) (now : ℕ) :
    Cache K V :=
  let c1 := deleteKey c k
  let c2 := if capacity ≤ c1.length then c1.tail else c1
  c2 ++ [(k, ⟨v, now⟩)]

/-- One cache operation, with its call instant. -/
inductive CacheOp (K V : Type) where
  | get (k : K) (now : ℕ)
  | set (k : K) (v : V) (now : ℕ)

/-- Apply one operation, keeping only the resulting cache state. -/
def applyOp (capacity ttl : ℕ) (c : Cache K V) : CacheOp K V → Cache K V
  | .get k now => (get c ttl k now).2
  | .set k v now => set c capacity k v now

/-- Apply a sequence of operations from left to right. -/
def applyOps (capacity ttl : ℕ) : List (CacheOp K V) → Cache K V → Cache K V
  | [], c => c
  | op :: ops, c => applyOps capacity ttl ops (applyOp capacity ttl c op)

/-- The keys of the cache, in order. -/
def keys (c : Cache K V) : List K := c.map Prod.fst

/-- The state after the delete-then-maybe-evict phase of `set`, before the
final insertion. -/
def evictPhase (c : Cache K V) (capacity : ℕ) (k : K) : Cache K V :=
  if capacity ≤ (deleteKey c k).length then (deleteKey c k).tail
  else deleteKey c k

/-- Insert 101 distinct keys (0..100) at instant 0. -/
def insert101 : List (CacheOp ℕ ℕ) :=
  (List.range 101).map (fun i => .set i i 0)

end LRUCache

/- ================= Answer contract (answerSchema.ts) ====================== -/

/-- JS `\s` for the whitespace handling the code performs (space, tab,
newline, carriage return, form feed). -/
def isWs (c : Char) : Bool :=
  c == ' ' || c == '\t' || c == '\n' || c == '\r' || c == '\x0c'

/-- JS `String.prototype.trim`. -/
def trimJS (s : JStr) : JStr :=
  ((s.dropWhile isWs).reverse.dropWhile isWs).reverse

namespace Contract

/-- The `os` enumeration of `StepSchema`. -/
inductive OSKind where
  | windows | macOS | android | iOS | chromeOS | linux
  deriving DecidableEq, Repr

/-- A step of the answer (`StepSchema`). -/
structure Step where
  title : JStr
  detail : JStr
  os : List OSKind
  est_minutes : Option ℚ
  shell : Option (List JStr)
  deriving DecidableEq, Repr

/-- A decision-tree node (`DecisionTreeSchema`); the source fields are
named `if` and `then`, which are keywords here. -/
structure DecisionNode where
  ifCond : JStr
  thenAction : JStr
  link_step : Option ℤ
  deriving DecidableEq, Repr

/-- A diagram (`DiagramSchema`). -/
structure Diagram where
  caption : JStr
  svg : JStr
  deriving DecidableEq, Repr

/-- A citation (`CitationSchema`). -/
structure Citation where
  url : JStr
  title : JStr
  quote : JStr
  deriving DecidableEq, Repr

/-- The structured answer (`AnswerSchema`). -/
structure Answer where
  answer_title : JStr
  one_paragraph_summary : JStr
  prereqs : List JStr
  steps : List Step
  decision_tree : List DecisionNode
  diagrams : List Diagram
  citations : List Citation
  warnings : List JStr
  deriving DecidableEq, Repr

/-- Model of the WHATWG `new URL(s)` constructor as the code uses it
(hostname extraction and parse-failure detection), restricted to absolute
http(s) URLs: the lowercased hostname is the text between the scheme
separator and the first `/`, `:`, `?` or `#`. Inputs outside this fragment
(no http(s) scheme) are treated as throwing, like `new URL("notaurl")`. -/
def parseHostname (s : JStr) : Option JStr :=
  let rest :=
    if (strOf "https://").isPrefixOf s then some (s.drop 8)
    else if (strOf "http://").isPrefixOf s then some (s.drop 7)
    else none
  match rest with
  | none => none
  | some r =>
    let host := r.takeWhile (fun c => !(c == '/' || c == ':' || c == '?' || c == '#'))
    if host.isEmpty then none else some (host.map Char.toLower)

/-- Source `hostname.split('.')` then `parts.slice(-2).join('.')` when at least two
labels exist, else the hostname itself. -/
def eTLD1 (host : JStr) : JStr :=
  let parts := host.splitOn '.'
  if 2 ≤ parts.length then
    List.intercalate ['.'] (parts.drop (parts.length - 2))
  else host

/-- JS `Set.add`: append if not already present. -/
def addUnique (l : List JStr) (d : JStr) : List JStr :=
  if d ∈ l then l else l ++ [d]

/-- The domain-collection loop of `distinctDomainsOK`: each parseable URL
contributes its registrable domain to the set; unparseable URLs are
skipped. -/
def collectDomains : List Citation → List JStr → List JStr
  | [], acc => acc
  | c :: rest, acc =>
    match parseHostname c.url with
    | none => collectDomains rest acc
    | some h => collectDomains rest (addUnique acc (eTLD1 h))

/-- Source `distinctDomainsOK`: fewer than two citations fail outright; otherwise
the collected domain set must have at least two members. -/
def distinctDomainsOK (citations : List Citation) : Bool :=
  if citations.length < 2 then false
  else decide (2 ≤ (collectDomains citations []).length)

/-- The registrable domains the citations contribute, in order, one per
parseable URL. -/
def domainList (citations : List Citation) : List JStr :=
  citations.filterMap (fun c => (parseHostname c.url).map eTLD1)

/-- Restatement of the specification's description of the check, for
comparison with the implementation: at least two citations, and the set of
registrable domains of the parseable citation URLs has at least two
elements. -/
def hasDistinctSourcesSpec (citations : List Citation) : Prop :=
  2 ≤ citations.length ∧ 2 ≤ (domainList citations).toFinset.card

/-- Source `clampAnswer`: truncate every over-length string field to its bound
(`substring(0, n)`), leaving everything else as is. -/
def clampAnswer (a : Answer) : Answer :=
  { a with
    answer_title := a.answer_title.take 200
    one_paragraph_summary := a.one_paragraph_summary.take 1000
    prereqs := a.prereqs.map (fun p => p.take 300)
    steps := a.steps.map (fun step =>
      { step with
        title := step.title.take 150
        detail := step.detail.take 800
        shell := step.shell.map (fun l => l.map (fun s => s.take 200)) })
    decision_tree := a.decision_tree.map (fun dt =>
      { dt with
        ifCond := dt.ifCond.take 200
        thenAction := dt.thenAction.take 300 })
    diagrams := a.diagrams.map (fun d =>
      { d with
        caption := d.caption.take 200
        svg := d.svg.take 10000 })
    citations := a.citations.map (fun c =>
      { c with
        title := c.title.take 200
        quote := c.quote.take 180 })
    warnings := a.warnings.map (fun w => w.take 300) }

/-- Source `StepSchema`: non-empty title and detail, at least one OS (the OS
values themselves are well-typed in this embedding), positive
`est_minutes` when present. -/
def validStep (s : Step) : Bool :=
  !s.title.isEmpty && !s.detail.isEmpty && !s.os.isEmpty
  && (match s.est_minutes with
      | none => true
      | some m => decide (0 < m))

/-- Source `DecisionTreeSchema`: non-empty condition and action, positive integer
`link_step` when present. -/
def validDecision (d : DecisionNode) : Bool :=
  !d.ifCond.isEmpty && !d.thenAction.isEmpty
  && (match d.link_step with
      | none => true
      | some n => decide (0 < n))

/-- Source `DiagramSchema`: non-empty caption, non-empty svg whose trimmed text
begins with an opening svg tag. -/
def validDiagram (d : Diagram) : Bool :=
  !d.caption.isEmpty && !d.svg.isEmpty
  && (strOf "<svg").isPrefixOf (trimJS d.svg)

/-- Source `CitationSchema`: a URL the `new URL` constructor accepts, a non-empty
title, and a quote of at most 180 characters. -/
def validCitation (c : Citation) : Bool :=
  (parseHostname c.url).isSome && !c.title.isEmpty
  && decide (c.quote.length ≤ 180)

/-- Source `AnswerSchema.safeParse` / `AnswerSchema.parse` success, on the typed
answer shape: non-empty title and summary, at least one step, 2–5
citations, and the per-element checks. -/
def validateAnswer (a : Answer) : Bool :=
  !a.answer_title.isEmpty && !a.one_paragraph_summary.isEmpty
  && a.steps.all validStep && decide (1 ≤ a.steps.length)
  && a.decision_tree.all validDecision
  && a.diagrams.all validDiagram
  && a.citations.all validCitation
  && decide (2 ≤ a.citations.length) && decide (a.citations.length ≤ 5)

end Contract

/- ================= Tool adapters (tools.ts) =============================== -/

namespace Tools

/-- Source `PageContentSchema`, the pair of clean text and headings. -/
structure PageContent where
  clean_text : JStr
  headings : List JStr
  deriving DecidableEq, Repr

/-- Source `.replace(/\s+/g, ' ')`: collapse every maximal whitespace run into a
single space (the subsequent `.replace(/\n+/g, ' ')` is a no-op since no
newline survives). The flag records whether the previous character was
whitespace. -/
def collapseWsAux : Bool → List Char → List Char
  | _, [] => []
  | prevWs, c :: rest =>
    if isWs c then
      if prevWs then collapseWsAux true rest
      else ' ' :: collapseWsAux true rest
    else c :: collapseWsAux false rest

/-- Whitespace collapsing of the fetched body text. -/
def collapseWs (s : JStr) : JStr := collapseWsAux false s

/-- The outcome of the network fetch and HTML extraction, supplied as an
oracle: either anything that throws (non-OK response — the code itself
throws on those — timeout, network or parse error), or the extracted
`h1`–`h3` texts in document order together with the body text. -/
inductive FetchOutcome where
  | failure
  | success (rawHeadings : List JStr) (bodyText : JStr)

/-- Source `fetch_page`: total — every failure is caught and mapped to a
placeholder text with no headings; on success the headings are the first 20
non-empty trimmed `h1`–`h3` texts and the body text is
whitespace-collapsed, trimmed, and truncated at 40000 characters with an
appended `"..."` when longer. -/
def fetch_page (url : JStr) (o : FetchOutcome) : PageContent :=
  match o with
  | .failure =>
    { clean_text := strOf "Unable to fetch content from " ++ url
        ++ strOf ". Please check the URL and try again."
      headings := [] }
  | .success rawHeadings bodyText =>
    let headings := ((rawHeadings.map trimJS).filter (fun t => !t.isEmpty)).take 20
    let t := trimJS (collapseWs bodyText)
    let cleanText := if 40000 < t.length then t.take 40000 ++ strOf "..." else t
    { clean_text := cleanText, headings := headings }

end Tools

/- ================= Agent orchestrator (llm.ts, answerIssue) =============== -/

namespace Orch

/-- The distinct failure exits of `answerIssue` (each a thrown `Error`,
rethrown by the outer catch with a user-safe wrapper). -/
inductive FailReason where
  | budgetExhausted   -- 'Failed to get final response after tool calls'
  | noJson            -- extraction failed or both parse attempts failed
  | schemaMismatch    -- schema validation (or the final validateAnswer) failed
  | llmRequestFailed  -- an OpenAI SDK call threw and propagated to the outer catch
  deriving DecidableEq, Repr

/-- One assistant completion, as far as the control flow reads it: its text
content and how many tool calls it requests (`tool_calls` missing or empty
both behave as zero). -/
structure AssistantMsg where
  content : JStr
  toolCalls : ℕ
  deriving DecidableEq, Repr

/-- The `while (toolCallCount < maxToolCalls)` loop: each iteration makes
one completion; a completion without tool calls ends the loop with its
content, a completion with tool calls dispatches them (tool failures
degrade to markers and never abort the round) and increments the counter.
Returns the final content, if any, and the number of completions made.
`model i` is the assistant completion of the i-th round, an oracle. -/
def runToolLoop (model : ℕ → AssistantMsg) :
    (remaining : ℕ) → (calls : ℕ) → Option JStr × ℕ
  | 0, calls => (none, calls)
  | Nat.succ rem, calls =>
    let m := model calls
    if m.toolCalls = 0 then (some m.content, calls + 1)
    else runToolLoop model rem (calls + 1)

/-- Source `maxToolCalls = 3`. -/
def maxToolCalls : ℕ := 3

/-- The loop followed by the `if (!finalResponse) throw` guard (an empty
final content is falsy in JS and hits the same throw). -/
def answerLoop (model : ℕ → AssistantMsg) : Except FailReason JStr :=
  match (runToolLoop model maxToolCalls 0).1 with
  | none => .error .budgetExhausted
  | some s => if s.isEmpty then .error .budgetExhausted else .ok s

/-- A model that requests tool calls on every round and never answers. -/
def toolOnlyModel : ℕ → AssistantMsg := fun _ => ⟨[], 1⟩

/-- Lines 315–325 of `answerIssue`: clamp the parsed answer to safe sizes
BEFORE validation, then validate; a validation failure throws a schema
error. -/
def finalizeParse (parsed : Contract.Answer) : Except FailReason Contract.Answer :=
  let c := Contract.clampAnswer parsed
  if Contract.validateAnswer c then .ok c else .error .schemaMismatch

/-- Source `return validateAnswer(parsedResponse)`: the final `AnswerSchema.parse`,
which throws on an invalid answer. -/
def finalValidate (a : Contract.Answer) : Except FailReason Contract.Answer :=
  if Contract.validateAnswer a then .ok a else .error .schemaMismatch

/-- The outcome of the citation-addendum round, supplied as an oracle at
the granularity the code branches on: the SDK call threw; the reply had no
(or empty) content; no bracket-delimited array matched; `JSON.parse` threw
(caught by the inner catch); the parse produced a non-array; or it produced
an array of citation objects. -/
inductive RepairReply where
  | requestThrew
  | noContent
  | noArrayMatch
  | parseError
  | parsedNonArray
  | parsedArray (cs : List Contract.Citation)

/-- The citation-diversity tail of `answerIssue`, starting from an
already-validated answer: when the citations pass the diversity check, or
the addendum yields nothing usable, the answer flows to the final
validation unchanged; when an array is parsed, `parsedResponse.citations`
is overwritten with the first 2 original plus up to 3 new citations (capped
at 5) — on re-validation failure only a warning is logged and the mutated
answer still flows to the final validation; a thrown addendum request
propagates to the outer catch. -/
def runCitationRepair (a : Contract.Answer) (reply : RepairReply) :
    Except FailReason Contract.Answer :=
  if Contract.distinctDomainsOK a.citations then finalValidate a
  else
    match reply with
    | .requestThrew => .error .llmRequestFailed
    | .noContent | .noArrayMatch | .parseError | .parsedNonArray =>
      finalValidate a
    | .parsedArray cs =>
      let newCitations := (a.citations.take 2 ++ cs.take 3).take 5
      finalValidate { a with citations := newCitations }

end Orch

/- ================= Request handler (route.ts, POST) ======================= -/

namespace Handler

/-- The canonical request fingerprint, `JSON.stringify({issue, os, device})`
— deterministic in the triple, so the triple itself serves as the key. -/
abbrev Fingerprint := JStr × Contract.OSKind × JStr

/-- The side effects the handler can perform after admission, in order. -/
inductive Ev where
  | parseBody
  | cacheGet
  | orchestrate
  | cacheSet
  deriving DecidableEq, Repr

/-- The transport-level response, with the header metadata the claims
mention. -/
structure Resp where
  status : ℕ
  errorMsg : Option JStr
  retryAfter : Option ℕ
  answer : Option Contract.Answer
  cacheHit : Option Bool
  deriving DecidableEq, Repr

/-- Source `Math.ceil(x / 1000)` on a non-negative integer. -/
def ceilDiv1000 (x : ℕ) : ℕ := (x + 999) / 1000

/-- Source `POST`: rate-limit admission first (denial returns a structured 429
body with a `retryAfter` hint and touches nothing else), then payload
parsing (a Zod failure maps to 400), then the cache lookup on the
fingerprint, then on a miss the orchestrator, whose validated result is
cached; an orchestrator failure maps to a generic 500. The parse outcome
and the orchestrator outcome are oracles. Returns the response, the event
trace after admission, and the updated limiter and cache states. -/
def handlePOST (rlCfg : RL.RLConfig) (rlSt : RL.RLState) (ip : String)
    (now : ℕ) (parseResult : Option Fingerprint)
    (cache : LRUCache.Cache Fingerprint Contract.Answer)
    (orch : Except Orch.FailReason Contract.Answer) :
    Resp × List Ev × RL.RLState ×
      LRUCache.Cache Fingerprint Contract.Answer :=
  let adm := RL.consume rlCfg rlSt ip now
  if !adm.1 then
    ({ status := 429
       errorMsg := some (strOf "Rate limit exceeded. Please try again later.")
       retryAfter := some (ceilDiv1000 (600000 - now % 600000))
       answer := none, cacheHit := none },
     [], adm.2, cache)
  else
    match parseResult with
    | none =>
      ({ status := 400, errorMsg := some (strOf "Invalid request data")
         retryAfter := none, answer := none, cacheHit := none },
       [.parseBody], adm.2, cache)
    | some key =>
      let looked := LRUCache.get cache 21600000 key now
      match looked.1 with
      | some ans =>
        ({ status := 200, errorMsg := none, retryAfter := none
           answer := some ans, cacheHit := some true },
         [.parseBody, .cacheGet], adm.2, looked.2)
      | none =>
        match orch with
        | .ok ans =>
          ({ status := 200, errorMsg := none, retryAfter := none
             answer := some ans, cacheHit := some false },
           [.parseBody, .cacheGet, .orchestrate, .cacheSet], adm.2,
           LRUCache.set looked.2 100 key ans now)
        | .error _ =>
          ({ status := 500, errorMsg := some (strOf "Internal server error")
             retryAfter := none, answer := none, cacheHit := none },
           [.parseBody, .cacheGet, .orchestrate], adm.2, looked.2)

end Handler

/- ================= Concrete fixtures ====================================== -/

namespace Fix

/-- Citation with URL `https://support.example.com`. -/
def citSupport : Contract.Citation :=
  ⟨strOf "https://support.example.com", strOf "S", []⟩

/-- Citation with URL `https://docs.example.com`. -/
def citDocs : Contract.Citation :=
  ⟨strOf "https://docs.example.com", strOf "D", []⟩

/-- Citation with URL `https://example.com`. -/
def citExample : Contract.Citation :=
  ⟨strOf "https://example.com", strOf "E", []⟩

/-- Citation with URL `https://different.org`. -/
def citDifferent : Contract.Citation :=
  ⟨strOf "https://different.org", strOf "F", []⟩

/-- A citation whose URL the `new URL` constructor rejects. -/
def citBad : Contract.Citation := ⟨strOf "notaurl", strOf "X", []⟩

/-- A minimal schema-valid step. -/
def stepBasic : Contract.Step :=
  ⟨strOf "t", strOf "d", [.windows], none, none⟩

/-- A schema-valid answer whose two citations share the registrable domain
`example.com`. -/
def answerSameDomain : Contract.Answer :=
  { answer_title := strOf "a", one_paragraph_summary := strOf "s"
    prereqs := [], steps := [stepBasic], decision_tree := [], diagrams := []
    citations := [citSupport, citDocs], warnings := [] }

/-- A 300-character title. -/
def title300 : JStr := List.replicate 300 'a'

/-- A limiter state whose only bucket is empty, with no time elapsed since
its last refill at instant 0. -/
def stExhausted : RL.RLState := [("9.9.9.9", ⟨0, 0⟩)]

/-- A 40001-character page body with no whitespace. -/
def body40001 : JStr := List.replicate 40001 'a'

/-- A step carrying a 300-character shell command. -/
def stepShell : Contract.Step :=
  ⟨strOf "t", strOf "d", [.windows], none, some [List.replicate 300 'b']⟩

/-- An answer whose single step carries an over-length shell command. -/
def answerShell : Contract.Answer :=
  { answerSameDomain with steps := [stepShell] }

/-- An otherwise-valid answer whose title is 300 characters long. -/
def answer300 : Contract.Answer :=
  { answerSameDomain with
    answer_title := title300
    citations := [citExample, citDifferent] }

end Fix

/- ========================= Theorems ======================================= -/

namespace LRUCache

variable {K V : Type} [DecidableEq K]

theorem deleteKey_length_le (c : Cache K V) (k : K) :
    (deleteKey c k).length ≤ c.length := by
  induction c with
  | nil => simp [deleteKey]
  | cons hd tl ih =>
    obtain ⟨a, e⟩ := hd
    by_cases h : a = k <;> simp [deleteKey, h] <;> omega

theorem deleteKey_length_of_found (c : Cache K V) (k : K) (e : Entry V)
    (h : findEntry c k = some e) :
    (deleteKey c k).length + 1 = c.length := by
  induction c with
  | nil => simp [findEntry] at h
  | cons hd tl ih =>
    obtain ⟨a, e'⟩ := hd
    by_cases hak : a = k
    · simp [deleteKey, hak]
    · simp [findEntry, hak] at h
      simp [deleteKey, hak, ih h]

theorem get_length_le (c : Cache K V) (ttl k now) :
    ((get c ttl k now).2).length ≤ c.length := by
  unfold get
  cases hf : findEntry c k with
  | none => simp
  | some item =>
    by_cases hex : now - item.timestamp > ttl
    · simpa [hex] using deleteKey_length_le c k
    · have := deleteKey_length_of_found c k item hf
      simp [hex]
      omega

theorem set_length_le (c : Cache K V) (cap : ℕ) (k : K) (v : V) (now : ℕ)
    (hcap : 1 ≤ cap) (hc : c.length ≤ cap) :
    (set c cap k v now).length ≤ cap := by
  unfold set
  have h1 := deleteKey_length_le c k
  by_cases h : cap ≤ (deleteKey c k).length
  · have hne : (deleteKey c k) ≠ [] := by
      intro hnil
      rw [hnil] at h
      simp at h
      omega
    simp [h, List.length_tail]
    omega
  · simp [h]
    omega

theorem applyOps_length_le (cap ttl : ℕ) (hcap : 1 ≤ cap)
    (ops : List (CacheOp K V)) (c : Cache K V) (hc : c.length ≤ cap) :
    (applyOps cap ttl ops c).length ≤ cap := by
  induction ops generalizing c with
  | nil => simpa [applyOps] using hc
  | cons op ops ih =>
    refine ih _ ?_
    cases op with
    | get k now =>
      exact le_trans (get_length_le c ttl k now) hc
    | set k v now =>
      exact set_length_le c cap k v now hcap hc

end LRUCache

set_option maxRecDepth 40000 in
/-- C3: the cache size never exceeds the configured capacity over any
operation sequence (for any positive capacity, in particular the configured
100); and inserting 101 distinct keys into an empty cache of capacity 100
leaves exactly 100 entries, the evicted one being the oldest key 0 —
the remaining keys are 1..100 in order. -/
theorem C3_lru_capacity :
    (∀ (cap ttl : ℕ), 1 ≤ cap → ∀ (ops : List (LRUCache.CacheOp ℕ ℕ)),
      (LRUCache.applyOps cap ttl ops []).length ≤ cap)
    ∧ (LRUCache.applyOps 100 21600000 LRUCache.insert101 []).length = 100
    ∧ LRUCache.keys (LRUCache.applyOps 100 21600000 LRUCache.insert101 [])
        = List.range' 1 100 := by
  refine ⟨fun cap ttl hcap ops =>
    LRUCache.applyOps_length_le cap ttl hcap ops [] (by simp), ?_, ?_⟩ <;>
    decide

/-- C3 witness: the general bound instantiated at capacity 1 with a
two-operation sequence. -/
theorem C3_lru_capacity_witness :
    (LRUCache.applyOps 1 0
      [LRUCache.CacheOp.set 7 7 0, LRUCache.CacheOp.set 8 8 0] []).length ≤ 1 :=
  C3_lru_capacity.1 1 0 (by decide) _

namespace LRUCache

variable {K V : Type} [DecidableEq K]

theorem keys_deleteKey_subset (c : Cache K V) (k : K) :
    keys (deleteKey c k) ⊆ keys c := by
  induction c with
  | nil => simp [deleteKey, keys]
  | cons hd tl ih =>
    obtain ⟨a, e⟩ := hd
    by_cases hak : a = k
    · simp only [deleteKey, if_pos hak, keys, List.map_cons]
      exact List.subset_cons_self _ _
    · simp only [deleteKey, if_neg hak, keys, List.map_cons]
      exact List.cons_subset_cons _ ih

theorem keys_deleteKey_nodup (c : Cache K V) (k : K)
    (h : (keys c).Nodup) :
    (keys (deleteKey c k)).Nodup ∧ k ∉ keys (deleteKey c k) := by
  induction c with
  | nil => simp [deleteKey, keys]
  | cons hd tl ih =>
    obtain ⟨a, e⟩ := hd
    have h'' : (a :: keys tl).Nodup := by
      simpa only [keys, List.map_cons] using h
    have h' := List.nodup_cons.mp h''
    by_cases hak : a = k
    · subst hak
      simp only [deleteKey, if_pos rfl]
      exact ⟨h'.2, h'.1⟩
    · have ihh := ih h'.2
      simp only [deleteKey, if_neg hak, keys, List.map_cons]
      constructor
      · exact List.nodup_cons.mpr
          ⟨fun hmem => h'.1 (keys_deleteKey_subset tl k hmem), ihh.1⟩
      · rw [List.mem_cons]
        rintro (hk | hk)
        · exact hak hk.symm
        · exact ihh.2 hk

theorem mem_keys_tail (c : Cache K V) (k : K) (h : k ∉ keys c) :
    k ∉ keys c.tail := by
  intro hmem
  apply h
  cases c with
  | nil => simpa [keys] using hmem
  | cons hd tl =>
    simp only [keys, List.tail_cons] at hmem
    simp only [keys, List.map_cons, List.mem_cons]
    exact Or.inr hmem

theorem nodup_keys_tail (c : Cache K V) (h : (keys c).Nodup) :
    (keys c.tail).Nodup := by
  cases c with
  | nil => simpa [keys] using h
  | cons hd tl =>
    simp only [keys, List.map_cons] at h
    simpa [keys] using h.of_cons

theorem set_eq_evictPhase (c : Cache K V) (cap : ℕ) (k : K) (v : V)
    (now : ℕ) : set c cap k v now = evictPhase c cap k ++ [(k, ⟨v, now⟩)] :=
  rfl

theorem evictPhase_spec (c : Cache K V) (cap : ℕ) (k : K)
    (hnd : (keys c).Nodup) :
    (keys (evictPhase c cap k)).Nodup ∧ k ∉ keys (evictPhase c cap k) := by
  have hd := keys_deleteKey_nodup c k hnd
  unfold evictPhase
  by_cases h : cap ≤ (deleteKey c k).length
  · simp only [if_pos h]
    exact ⟨nodup_keys_tail _ hd.1, mem_keys_tail _ _ hd.2⟩
  · simp only [if_neg h]
    exact hd

theorem keys_append_single (c : Cache K V) (k : K) (e : Entry V) :
    keys (c ++ [(k, e)]) = keys c ++ [k] := by
  simp [keys]

end LRUCache

/-- C4: for a key present in the cache, (i) a `get` strictly more than `ttl`
after the entry's timestamp returns absent and deletes the entry; (ii) a
`get` within the TTL returns the stored value and moves the entry (with its
original timestamp) to the most-recently-used position; and (iii) on a cache
whose keys are duplicate-free, `set` leaves the new entry at the
most-recently-used position with exactly one entry for that key, and the
keys stay duplicate-free. -/
theorem C4_lru_get_set :
    (∀ (c : LRUCache.Cache ℕ ℕ) (ttl k now : ℕ) (e : LRUCache.Entry ℕ),
      LRUCache.findEntry c k = some e → ttl < now - e.timestamp →
      LRUCache.get c ttl k now = (none, LRUCache.deleteKey c k))
    ∧ (∀ (c : LRUCache.Cache ℕ ℕ) (ttl k now : ℕ) (e : LRUCache.Entry ℕ),
      LRUCache.findEntry c k = some e → now - e.timestamp ≤ ttl →
      LRUCache.get c ttl k now
        = (some e.value, LRUCache.deleteKey c k ++ [(k, e)]))
    ∧ (∀ (c : LRUCache.Cache ℕ ℕ) (cap k v now : ℕ),
      (LRUCache.keys c).Nodup →
      (LRUCache.set c cap k v now).getLast? = some (k, ⟨v, now⟩)
      ∧ (LRUCache.keys (LRUCache.set c cap k v now)).count k = 1
      ∧ (LRUCache.keys (LRUCache.set c cap k v now)).Nodup) := by
  refine ⟨?_, ?_, ?_⟩
  · intro c ttl k now e hf hex
    simp [LRUCache.get, hf, Nat.lt_iff_add_one_le.mp hex]
    omega
  · intro c ttl k now e hf hex
    simp [LRUCache.get, hf]
    omega
  · intro c cap k v now hnd
    have hd2 := LRUCache.evictPhase_spec c cap k hnd
    rw [LRUCache.set_eq_evictPhase]
    refine ⟨?_, ?_, ?_⟩
    · simp
    · rw [LRUCache.keys_append_single, List.count_append,
        List.count_eq_zero.mpr hd2.2]
      simp
    · rw [LRUCache.keys_append_single, List.nodup_append]
      refine ⟨hd2.1, List.nodup_singleton _, ?_⟩
      intro a ha hmem
      rw [List.mem_singleton] at hmem
      exact hd2.2 (hmem ▸ ha)

/-- C4 witness: the three parts instantiated on small concrete caches. -/
theorem C4_lru_get_set_witness :
    LRUCache.get [(1, ⟨5, 0⟩)] 10 1 20 = (none, LRUCache.deleteKey [(1, ⟨5, 0⟩)] 1)
    ∧ LRUCache.get [(1, ⟨5, 0⟩)] 10 1 9
        = (some 5, LRUCache.deleteKey [(1, ⟨5, 0⟩)] 1 ++ [(1, ⟨5, 0⟩)])
    ∧ (LRUCache.set [(1, ⟨5, 0⟩), (2, ⟨6, 0⟩)] 100 1 7 3).getLast? = some (1, ⟨7, 3⟩) :=
  ⟨C4_lru_get_set.1 [(1, ⟨5, 0⟩)] 10 1 20 ⟨5, 0⟩ (by decide) (by decide),
   C4_lru_get_set.2.1 [(1, ⟨5, 0⟩)] 10 1 9 ⟨5, 0⟩ (by decide) (by decide),
   (C4_lru_get_set.2.2 [(1, ⟨5, 0⟩), (2, ⟨6, 0⟩)] 100 1 7 3 (by decide)).1⟩


/-- C2: for every identity with no prior bucket and every call instant,
under the default configuration (maxTokens = 10) ten back-to-back `consume`
calls all return true, the eleventh returns false, and on that denying call
the bucket state is still written back: the stored bucket has zero tokens
and its `lastRefill` equals the call instant. -/
theorem C2_rate_limiter_burst :
    ∀ (ip : String) (now : ℕ),
      (RL.burst11 ip now).1 = List.replicate 10 true ++ [false]
      ∧ List.lookup ip (RL.burst11 ip now).2 = some ⟨0, now⟩ := by
  intro ip now
  constructor <;>
    norm_num [RL.burst11, RL.consumeRun, RL.consume, RL.setBucket,
      RL.defaultRL, RL.refillRate, List.lookup, List.replicate]

namespace Contract

theorem collectDomains_eq_foldl (cs : List Citation) (acc : List JStr) :
    collectDomains cs acc = (domainList cs).foldl addUnique acc := by
  induction cs generalizing acc with
  | nil => simp [collectDomains, domainList]
  | cons c rest ih =>
    cases h : parseHostname c.url with
    | none => simp [collectDomains, domainList, h, ih]
    | some hst => simp [collectDomains, domainList, h, ih]

theorem addUnique_nodup (acc : List JStr) (d : JStr) (h : acc.Nodup) :
    (addUnique acc d).Nodup := by
  by_cases hm : d ∈ acc
  · simpa [addUnique, hm] using h
  · simp [addUnique, hm, List.nodup_append, h]

theorem addUnique_toFinset (acc : List JStr) (d : JStr) :
    (addUnique acc d).toFinset = insert d acc.toFinset := by
  by_cases hm : d ∈ acc
  · simp [addUnique, hm]
  · simp [addUnique, hm, List.toFinset_append]
    rw [Finset.union_comm]
    simp [Finset.insert_eq]

theorem foldl_addUnique_nodup (l acc : List JStr) (h : acc.Nodup) :
    (l.foldl addUnique acc).Nodup := by
  induction l generalizing acc with
  | nil => simpa using h
  | cons x l ih => exact ih _ (addUnique_nodup acc x h)

theorem foldl_addUnique_toFinset (l acc : List JStr) :
    (l.foldl addUnique acc).toFinset = acc.toFinset ∪ l.toFinset := by
  induction l generalizing acc with
  | nil => simp
  | cons x l ih =>
    rw [List.foldl_cons, ih, addUnique_toFinset]
    simp [Finset.insert_union, Finset.union_insert]

theorem collectDomains_card (cs : List Citation) :
    (collectDomains cs []).length = (domainList cs).toFinset.card := by
  rw [collectDomains_eq_foldl]
  rw [← List.toFinset_card_of_nodup
    (foldl_addUnique_nodup (domainList cs) [] (by simp))]
  rw [foldl_addUnique_toFinset]
  simp

end Contract

/-- C7: `distinctDomainsOK` returns true exactly when there are at least two
citations and the set of registrable domains of the parseable citation URLs
has at least two members; it is false for the same-registrable-domain pair
`support.example.com` / `docs.example.com` and true for the pair
`example.com` / `different.org`. -/
theorem C7_distinct_sources :
    (∀ cs, Contract.distinctDomainsOK cs = true ↔ Contract.hasDistinctSourcesSpec cs)
    ∧ Contract.distinctDomainsOK [Fix.citSupport, Fix.citDocs] = false
    ∧ Contract.distinctDomainsOK [Fix.citExample, Fix.citDifferent] = true := by
  refine ⟨fun cs => ?_, by decide, by decide⟩
  unfold Contract.distinctDomainsOK Contract.hasDistinctSourcesSpec
  by_cases h : cs.length < 2
  · simp [h]
  · simp [h, Contract.collectDomains_card]
    omega

/-- C7 witness: the equivalence applied to the two-distinct-domains pair. -/
theorem C7_distinct_sources_witness :
    Contract.hasDistinctSourcesSpec [Fix.citExample, Fix.citDifferent] :=
  (C7_distinct_sources.1 [Fix.citExample, Fix.citDifferent]).mp (by decide)

set_option maxRecDepth 40000 in
/-- C6: `clampAnswer` bounds every clamped string field by its contractual
maximum (and, being a total function, never errors); a 300-character title
is clamped to exactly 200 characters; and the orchestrator's finalization
applies `clampAnswer` before schema validation, so an otherwise-valid
answer with an over-length title is accepted rather than rejected. -/
theorem C6_clamp_before_validation :
    (∀ a : Contract.Answer,
      (Contract.clampAnswer a).answer_title.length ≤ 200
      ∧ (Contract.clampAnswer a).one_paragraph_summary.length ≤ 1000
      ∧ (∀ p ∈ (Contract.clampAnswer a).prereqs, p.length ≤ 300)
      ∧ (∀ s ∈ (Contract.clampAnswer a).steps,
          s.title.length ≤ 150 ∧ s.detail.length ≤ 800
          ∧ ∀ l, s.shell = some l → ∀ x ∈ l, x.length ≤ 200)
      ∧ (∀ d ∈ (Contract.clampAnswer a).decision_tree,
          d.ifCond.length ≤ 200 ∧ d.thenAction.length ≤ 300)
      ∧ (∀ d ∈ (Contract.clampAnswer a).diagrams,
          d.caption.length ≤ 200 ∧ d.svg.length ≤ 10000)
      ∧ (∀ c ∈ (Contract.clampAnswer a).citations,
          c.title.length ≤ 200 ∧ c.quote.length ≤ 180)
      ∧ (∀ w ∈ (Contract.clampAnswer a).warnings, w.length ≤ 300))
    ∧ (Contract.clampAnswer Fix.answer300).answer_title.length = 200
    ∧ Orch.finalizeParse Fix.answer300
        = .ok (Contract.clampAnswer Fix.answer300) := by
  refine ⟨fun a => ?_, by decide, by rfl⟩
  refine ⟨?_, ?_, ?_, ?_, ?_, ?_, ?_, ?_⟩
  · simp [Contract.clampAnswer]
  · simp [Contract.clampAnswer]
  · intro p hp
    simp only [Contract.clampAnswer, List.mem_map] at hp
    obtain ⟨q, _, rfl⟩ := hp
    simp
  · intro s hs
    simp only [Contract.clampAnswer, List.mem_map] at hs
    obtain ⟨q, _, rfl⟩ := hs
    refine ⟨by simp, by simp, ?_⟩
    intro l hl x hx
    simp only [Option.map_eq_some'] at hl
    obtain ⟨l0, _, rfl⟩ := hl
    simp only [List.mem_map] at hx
    obtain ⟨y, _, rfl⟩ := hx
    simp
  · intro d hd
    simp only [Contract.clampAnswer, List.mem_map] at hd
    obtain ⟨q, _, rfl⟩ := hd
    simp
  · intro d hd
    simp only [Contract.clampAnswer, List.mem_map] at hd
    obtain ⟨q, _, rfl⟩ := hd
    simp
  · intro c hc
    simp only [Contract.clampAnswer, List.mem_map] at hc
    obtain ⟨q, _, rfl⟩ := hc
    simp
  · intro w hw
    simp only [Contract.clampAnswer, List.mem_map] at hw
    obtain ⟨q, _, rfl⟩ := hw
    simp

/-- C10: `clampAnswer` changes only string contents: every array field keeps
its element count (including each step's `shell` list), each step's `os`
and `est_minutes`, each decision node's `link_step`, and each citation's
`url` are unchanged — so an out-of-bound count or malformed URL survives
clamping and reaches validation unchanged. -/
theorem C10_clamp_frame :
    ∀ a : Contract.Answer,
      (Contract.clampAnswer a).prereqs.length = a.prereqs.length
      ∧ (Contract.clampAnswer a).steps.length = a.steps.length
      ∧ (Contract.clampAnswer a).decision_tree.length = a.decision_tree.length
      ∧ (Contract.clampAnswer a).diagrams.length = a.diagrams.length
      ∧ (Contract.clampAnswer a).citations.length = a.citations.length
      ∧ (Contract.clampAnswer a).warnings.length = a.warnings.length
      ∧ (Contract.clampAnswer a).steps.map Contract.Step.os
          = a.steps.map Contract.Step.os
      ∧ (Contract.clampAnswer a).steps.map Contract.Step.est_minutes
          = a.steps.map Contract.Step.est_minutes
      ∧ (Contract.clampAnswer a).steps.map (fun s => s.shell.map List.length)
          = a.steps.map (fun s => s.shell.map List.length)
      ∧ (Contract.clampAnswer a).decision_tree.map Contract.DecisionNode.link_step
          = a.decision_tree.map Contract.DecisionNode.link_step
      ∧ (Contract.clampAnswer a).citations.map Contract.Citation.url
          = a.citations.map Contract.Citation.url := by
  intro a
  refine ⟨?_, ?_, ?_, ?_, ?_, ?_, ?_, ?_, ?_, ?_, ?_⟩
  case refine_9 =>
    simp only [Contract.clampAnswer, List.map_map, Function.comp]
    refine List.map_congr_left (fun s _ => ?_)
    obtain ⟨t, d, os, em, sh⟩ := s
    cases sh <;> simp
  all_goals
    simp [Contract.clampAnswer, List.map_map, Function.comp, Option.map_map]

namespace Orch

theorem runToolLoop_calls_le (model : ℕ → AssistantMsg) (rem calls : ℕ) :
    (runToolLoop model rem calls).2 ≤ calls + rem := by
  induction rem generalizing calls with
  | zero => simp [runToolLoop]
  | succ rem ih =>
    unfold runToolLoop
    by_cases h : (model calls).toolCalls = 0
    · simp [h]
    · simp [h]
      exact le_trans (ih (calls + 1)) (by omega)

end Orch

/-- C5: if the model requests tool calls on every round, `answerIssue`
terminates with the tool-call-budget failure (the guarded throw after the
loop), having made exactly 3 completions; and for every model the loop
makes at most 3 completions. -/
theorem C5_tool_budget :
    (∀ model : ℕ → Orch.AssistantMsg, (∀ i, (model i).toolCalls ≠ 0) →
      Orch.answerLoop model = .error .budgetExhausted
      ∧ (Orch.runToolLoop model Orch.maxToolCalls 0).2 = 3)
    ∧ (∀ model : ℕ → Orch.AssistantMsg,
      (Orch.runToolLoop model Orch.maxToolCalls 0).2 ≤ 3) := by
  constructor
  · intro model h
    constructor <;>
      simp [Orch.answerLoop, Orch.runToolLoop, Orch.maxToolCalls,
        h 0, h 1, h 2]
  · intro model
    simpa using Orch.runToolLoop_calls_le model Orch.maxToolCalls 0

/-- C5 witness: the all-tool-calls model exhausts the budget in exactly 3
rounds. -/
theorem C5_tool_budget_witness :
    Orch.answerLoop Orch.toolOnlyModel = .error .budgetExhausted
    ∧ (Orch.runToolLoop Orch.toolOnlyModel Orch.maxToolCalls 0).2 = 3 :=
  C5_tool_budget.1 Orch.toolOnlyModel (fun i => by simp [Orch.toolOnlyModel])

/-- C1 (code bug): on a validated answer whose two citations share a
registrable domain, the repair round does NOT always keep the original
valid citation list. When the addendum parses to an array containing an
invalid citation, the spliced list (never restored after the failed
re-validation, which only logs a warning) reaches the final
`validateAnswer`, which throws — the call fails with a schema error. A
thrown addendum request likewise propagates to the outer catch. Only the
no-usable-reply branches keep the original answer as the claim describes. -/
theorem C1_repair_failure_escalates :
    Contract.validateAnswer Fix.answerSameDomain = true
    ∧ Contract.distinctDomainsOK Fix.answerSameDomain.citations = false
    ∧ Orch.runCitationRepair Fix.answerSameDomain (.parsedArray [Fix.citBad])
        = .error .schemaMismatch
    ∧ Orch.runCitationRepair Fix.answerSameDomain .requestThrew
        = .error .llmRequestFailed
    ∧ Orch.runCitationRepair Fix.answerSameDomain .noArrayMatch
        = .ok Fix.answerSameDomain :=
  ⟨by decide, by decide, by rfl, by rfl, by rfl⟩

/-- C8: whenever `consume` denies the caller's identity, the handler returns
the structured 429 rate-limit body with a retry-after hint, performs no
body parsing, no cache access and no orchestrator call (the post-admission
event trace is empty), and leaves the cache untouched. -/
theorem C8_rate_limit_gate :
    ∀ (cfg : RL.RLConfig) (st : RL.RLState) (ip : String) (now : ℕ)
      (parseResult : Option Handler.Fingerprint)
      (cache : LRUCache.Cache Handler.Fingerprint Contract.Answer)
      (orch : Except Orch.FailReason Contract.Answer),
      (RL.consume cfg st ip now).1 = false →
      (Handler.handlePOST cfg st ip now parseResult cache orch).1.status = 429
      ∧ (Handler.handlePOST cfg st ip now parseResult cache orch).1.retryAfter.isSome
      ∧ (Handler.handlePOST cfg st ip now parseResult cache orch).1.errorMsg.isSome
      ∧ (Handler.handlePOST cfg st ip now parseResult cache orch).2.1 = []
      ∧ (Handler.handlePOST cfg st ip now parseResult cache orch).2.2.2 = cache := by
  intro cfg st ip now parseResult cache orch h
  simp [Handler.handlePOST, h]

/-- C8 witness: a denied identity (empty bucket, no elapsed time) gets the
429 with an empty post-admission trace. -/
theorem C8_rate_limit_gate_witness :
    (Handler.handlePOST RL.defaultRL Fix.stExhausted "9.9.9.9" 0 none []
      (.error .budgetExhausted)).1.status = 429
    ∧ (Handler.handlePOST RL.defaultRL Fix.stExhausted "9.9.9.9" 0 none []
      (.error .budgetExhausted)).2.1 = [] := by
  have h : (RL.consume RL.defaultRL Fix.stExhausted "9.9.9.9" 0).1 = false := by
    norm_num [RL.consume, Fix.stExhausted, RL.defaultRL, RL.refillRate,
      List.lookup]
  have := C8_rate_limit_gate RL.defaultRL Fix.stExhausted "9.9.9.9" 0 none []
    (.error .budgetExhausted) h
  exact ⟨this.1, this.2.2.2.1⟩

namespace Tools

theorem collapseWsAux_no_ws (l : List Char) (b : Bool)
    (h : ∀ c ∈ l, isWs c = false) : collapseWsAux b l = l := by
  induction l generalizing b with
  | nil => rfl
  | cons c rest ih =>
    have hc : isWs c = false := h c (by simp)
    simp only [collapseWsAux, hc, Bool.false_eq_true, if_false]
    rw [ih false (fun x hx => h x (by simp [hx]))]

theorem dropWhile_no_ws (l : List Char)
    (h : ∀ c ∈ l, isWs c = false) : l.dropWhile isWs = l := by
  cases l with
  | nil => rfl
  | cons c rest =>
    have hc : isWs c = false := h c (by simp)
    simp [List.dropWhile_cons, hc]

theorem trimJS_no_ws (l : List Char)
    (h : ∀ c ∈ l, isWs c = false) : trimJS l = l := by
  unfold trimJS
  rw [dropWhile_no_ws l h]
  rw [dropWhile_no_ws l.reverse (fun c hc => h c (List.mem_reverse.mp hc))]
  simp

theorem fetch_success_clean_text (url : JStr) (rh : List JStr) (body : JStr) :
    (fetch_page url (.success rh body)).clean_text
      = if 40000 < (trimJS (collapseWs body)).length
        then (trimJS (collapseWs body)).take 40000 ++ strOf "..."
        else trimJS (collapseWs body) := rfl

theorem fetch_success_headings (url : JStr) (rh : List JStr) (body : JStr) :
    (fetch_page url (.success rh body)).headings
      = ((rh.map trimJS).filter (fun t => !t.isEmpty)).take 20 := rfl

theorem body40001_no_ws : ∀ c ∈ Fix.body40001, isWs c = false := by
  intro c hc
  have hc2 : c ∈ List.replicate 40001 'a' := hc
  have hc' : c = 'a' := List.eq_of_mem_replicate hc2
  rw [hc']
  rfl

end Tools

/-- C9 counterexample: on a success outcome whose extracted body text is
40001 non-whitespace characters, `fetch_page` returns a `clean_text` of
40003 characters (40000 kept plus the appended three-dot ellipsis),
exceeding the claimed 40000-character bound. -/
theorem C9_fetch_truncation_counterexample :
    40000 < (Tools.fetch_page (strOf "https://example.com")
        (.success [] Fix.body40001)).clean_text.length
    ∧ (Tools.fetch_page (strOf "https://example.com")
        (.success [] Fix.body40001)).clean_text.length = 40003 := by
  have hcol : Tools.collapseWs Fix.body40001 = Fix.body40001 :=
    Tools.collapseWsAux_no_ws _ _ Tools.body40001_no_ws
  have htr : trimJS (Tools.collapseWs Fix.body40001) = Fix.body40001 := by
    rw [hcol]
    exact Tools.trimJS_no_ws _ Tools.body40001_no_ws
  have hlen : Fix.body40001.length = 40001 := by
    show (List.replicate 40001 'a').length = 40001
    rw [List.length_replicate]
  have hclean : (Tools.fetch_page (strOf "https://example.com")
      (.success [] Fix.body40001)).clean_text
      = Fix.body40001.take 40000 ++ strOf "..." := by
    rw [Tools.fetch_success_clean_text, htr, hlen, if_pos (by norm_num)]
  have h3 : (strOf "...").length = 3 := rfl
  constructor
  · rw [hclean, List.length_append, List.length_take, hlen, h3]
    omega
  · rw [hclean, List.length_append, List.length_take, hlen, h3]
    omega

/-- C9 amended: `fetch_page` is total; every failure yields the placeholder
text naming the URL with an empty heading list; on success `clean_text` is
at most 40003 characters — at most 40000 when the collapsed page text fits,
and exactly the first 40000 characters plus a 3-character ellipsis when it
is longer — and the headings are at most 20. -/
theorem C9_fetch_page_amended :
    (∀ url, Tools.fetch_page url .failure
      = { clean_text := strOf "Unable to fetch content from " ++ url
            ++ strOf ". Please check the URL and try again."
          headings := [] })
    ∧ (∀ url rawHeadings bodyText,
      (Tools.fetch_page url (.success rawHeadings bodyText)).clean_text.length ≤ 40003
      ∧ (Tools.fetch_page url (.success rawHeadings bodyText)).headings.length ≤ 20
      ∧ (40000 < (trimJS (Tools.collapseWs bodyText)).length →
          (Tools.fetch_page url (.success rawHeadings bodyText)).clean_text
            = (trimJS (Tools.collapseWs bodyText)).take 40000 ++ strOf "...")) := by
  refine ⟨fun url => rfl, fun url rawHeadings bodyText => ⟨?_, ?_, ?_⟩⟩
  · rw [Tools.fetch_success_clean_text]
    have h3 : (strOf "...").length = 3 := rfl
    by_cases h : 40000 < (trimJS (Tools.collapseWs bodyText)).length
    · rw [if_pos h, List.length_append, List.length_take, h3]
      omega
    · rw [if_neg h]
      omega
  · rw [Tools.fetch_success_headings]
    simp [List.length_take]
  · intro h
    rw [Tools.fetch_success_clean_text, if_pos h]

/-- C9 witness: the amended truncation shape evaluated on the 40001-character
body. -/
theorem C9_fetch_page_amended_witness :
    (Tools.fetch_page (strOf "u") (.success [] Fix.body40001)).clean_text
      = (trimJS (Tools.collapseWs Fix.body40001)).take 40000 ++ strOf "..." :=
  (C9_fetch_page_amended.2 (strOf "u") [] Fix.body40001).2.2 (by
    rw [show Tools.collapseWs Fix.body40001 = Fix.body40001 from
        Tools.collapseWsAux_no_ws _ _ Tools.body40001_no_ws,
      Tools.trimJS_no_ws _ Tools.body40001_no_ws]
    show 40000 < (List.replicate 40001 'a').length
    rw [List.length_replicate]
    norm_num)

set_option maxRecDepth 40000 in
/-- C6 witness: the shell-command bound applied to a concrete step of a
concrete clamped answer. -/
theorem C6_clamp_before_validation_witness :
    ((List.replicate 300 'b' : JStr).take 200).length ≤ 200 := by
  have h := (C6_clamp_before_validation.1 Fix.answerShell).2.2.2.1
  have hmem : (⟨strOf "t", strOf "d", [Contract.OSKind.windows], none,
      some [(List.replicate 300 'b' : JStr).take 200]⟩ : Contract.Step)
      ∈ (Contract.clampAnswer Fix.answerShell).steps := by decide
  exact (h _ hmem).2.2 _ rfl _ (by decide)
